import Mathlib

/-!
Verification of the post-visibility and permission-filtering rules of the
blogicum blog application (blog/views.py), against a shallow embedding of
the view-layer query and dispatch logic.

The data model (blog/models.py is not part of the sources; only the views
and the URL table are) is modelled from the specification: a Post has an
author, an optional (nullable) category, a publication timestamp and an
is_published flag; a Category has a unique slug and an is_published flag;
a Comment has a parent post and an author.  Timestamps are embedded as
integers.  The ORM queries of views.py are embedded as list computations:
filter becomes List.filter, order_by "-pub_date" becomes a merge sort by
descending timestamp, annotate Count("comments") attaches the number of
comments whose parent is the post, get_object_or_404 on a filtered
queryset becomes find? returning an Option, and pagination with a fixed
page size becomes chunking.
-/

/-- Modelled from the spec: a user (Profile) with a unique username used
as the public identifier in URLs. -/
structure User where
  id : Nat
  username : String
deriving DecidableEq, Repr

/-- Modelled from the spec: a category with id, slug (unique, URL-safe)
and an is_published flag. -/
structure Category where
  id : Nat
  slug : String
  is_published : Bool
deriving DecidableEq, Repr

/-- Modelled from the spec: a post with author, optional nullable
category, title, text, publication timestamp and is_published flag.
The category is carried denormalised (the row the ORM would join),
so an absent category is literally `none`. -/
structure Post where
  id : Nat
  author : User
  category : Option Category
  title : String
  text : String
  pub_date : Int
  is_published : Bool
deriving DecidableEq, Repr

/-- Modelled from the spec: a comment with parent post (by id), author,
text and creation timestamp. -/
structure Comment where
  id : Nat
  post : Nat
  author : User
  text : String
  created_at : Int
deriving DecidableEq, Repr

/-- The persistent store the request handlers read and write. -/
structure Store where
  users : List User
  categories : List Category
  posts : List Post
  comments : List Comment
deriving DecidableEq, Repr

/-- Embeds the Django lookup category__is_published=True of views.py.
On a nullable foreign key this lookup performs an inner join, so a post
whose category is null does NOT match: the match requires an existing,
published category row. -/
def categoryPublished (p : Post) : Bool :=
  match p.category with
  | none => false
  | some c => c.is_published

/-- The public-visibility filter shared by get_post_data (views.py lines
24-33) and CommonListMixin.get_queryset (lines 67-80): is_published=True,
category__is_published=True, pub_date__lte=now. -/
def publicFilter (now : Int) (p : Post) : Bool :=
  p.is_published && decide (p.pub_date ≤ now) && categoryPublished p

/-- Modelled from the spec: the operation isPubliclyVisible(post, now) as
the specification words it — is_published AND timestamp <= now AND
(category is null OR category.is_published).  Stated for comparison with
publicFilter, the predicate the code actually evaluates. -/
def isPubliclyVisible_spec (now : Int) (p : Post) : Bool :=
  p.is_published && decide (p.pub_date ≤ now) &&
    (match p.category with
     | none => true
     | some c => c.is_published)

/-- A post as it appears in a listing: annotated with
comment_count = Count("comments"). -/
structure CountedPost where
  post : Post
  comment_count : Nat
deriving DecidableEq, Repr

/-- The annotation comment_count=Count("comments"): the number of
comments whose parent is this post, with no further filter. -/
def commentTotal (comments : List Comment) (p : Post) : Nat :=
  comments.countP (fun c => c.post == p.id)

def withCount (comments : List Comment) (p : Post) : CountedPost :=
  { post := p, comment_count := commentTotal comments p }

/-- order_by "-pub_date": descending publication timestamp. -/
def pubDateGE (a b : CountedPost) : Prop :=
  b.post.pub_date ≤ a.post.pub_date

instance : DecidableRel pubDateGE := fun _ _ => Int.decLe _ _

instance : IsTotal CountedPost pubDateGE :=
  ⟨fun a b => le_total b.post.pub_date a.post.pub_date⟩

instance : IsTrans CountedPost pubDateGE :=
  ⟨fun _ _ _ h1 h2 => le_trans h2 h1⟩

/-- CommonListMixin.get_queryset (views.py lines 67-80): filter by the
public conditions, annotate each post with its comment count, order by
publication timestamp descending. -/
def commonListQueryset (store : Store) (now : Int) : List CountedPost :=
  List.insertionSort pubDateGE
    ((store.posts.filter (publicFilter now)).map (withCount store.comments))

/-- MAX_QUANTITY_POST (views.py line 21): the fixed page size. -/
def MAX_QUANTITY_POST : Nat := 10

/-- The framework paginator: split a list into consecutive pages of n
items (the last page may be shorter).  The paginator requires a positive
page size, hence the max with 1. -/
def paginate (n : Nat) : List α → List (List α)
  | [] => []
  | x :: xs =>
      (x :: xs).take (max n 1) :: paginate n ((x :: xs).drop (max n 1))
  termination_by l => l.length
  decreasing_by simp [List.length_drop]

/-- IndexListView: the paginated index listing. -/
def indexPages (store : Store) (now : Int) : List (List CountedPost) :=
  paginate MAX_QUANTITY_POST (commonListQueryset store now)

/-- PostDetailView.get_object (views.py lines 101-115).  An authenticated
viewer queries with Q(author=user) OR the public conditions; an anonymous
viewer goes through get_post_data, which applies the public conditions
only.  get_object_or_404 on the filtered queryset with pk=id: none is the
not-found response. -/
def postDetail (store : Store) (viewer : Option User) (now : Int)
    (id : Nat) : Option Post :=
  match viewer with
  | some u =>
      (store.posts.filter
        (fun p => p.author == u || publicFilter now p)).find?
        (fun p => p.id == id)
  | none =>
      (store.posts.filter (publicFilter now)).find? (fun p => p.id == id)

/-- CategoryPostsListView.get_queryset (views.py lines 127-134):
get_object_or_404(Category, slug=slug, is_published=True), then the
common public queryset narrowed to that category. -/
def categoryQueryset (store : Store) (now : Int) (slug : String) :
    Option (List CountedPost) :=
  match store.categories.find?
      (fun c => c.slug == slug && c.is_published) with
  | none => none
  | some cat =>
      some ((commonListQueryset store now).filter
        (fun a => a.post.category == some cat))

/-- ProfileListView.get_queryset (views.py lines 171-186):
get_object_or_404(User, username=username); if the viewer IS that user,
all posts with author__username equal to it, annotated and ordered, with
no visibility filter; otherwise the common public queryset — the code
applies no author filter on this branch. -/
def profileQueryset (store : Store) (viewer : Option User)
    (username : String) (now : Int) : Option (List CountedPost) :=
  match store.users.find? (fun u => u.username == username) with
  | none => none
  | some u =>
      if viewer == some u then
        some (List.insertionSort pubDateGE
          ((store.posts.filter
              (fun p => p.author.username == u.username)).map
            (withCount store.comments)))
      else
        some (commonListQueryset store now)

/-- The responses the mutating handlers can produce. -/
inductive Response where
  | notFound
  | redirectPostDetail (id : Nat)
  | loginRedirect
  | proceed
deriving DecidableEq, Repr

/-- PostUpdateView = PostVerifyMixin + UpdateView (views.py lines 83-90).
dispatch first fetches the post by post_id (404 if absent), then compares
its author with request.user: on mismatch — which includes every
anonymous request, since an anonymous viewer equals no author — it
redirects to the post detail page WITHOUT reaching LoginRequiredMixin;
otherwise LoginRequiredMixin runs and the update proceeds. -/
def postEditOp (store : Store) (viewer : Option User) (post_id : Nat)
    (newText : String) : Response × Store :=
  match store.posts.find? (fun p => p.id == post_id) with
  | none => (.notFound, store)
  | some p =>
      if viewer != some p.author then
        (.redirectPostDetail post_id, store)
      else
        match viewer with
        | none => (.loginRedirect, store)
        | some _ =>
            (.proceed,
             { store with
                posts := store.posts.map (fun q =>
                  if q.id == post_id then { q with text := newText }
                  else q) })

/-- PostDeleteView = PostVerifyMixin + DeleteView: same dispatch order as
postEditOp; on success the post row is removed. -/
def postDeleteOp (store : Store) (viewer : Option User) (post_id : Nat) :
    Response × Store :=
  match store.posts.find? (fun p => p.id == post_id) with
  | none => (.notFound, store)
  | some p =>
      if viewer != some p.author then
        (.redirectPostDetail post_id, store)
      else
        match viewer with
        | none => (.loginRedirect, store)
        | some _ =>
            (.proceed,
             { store with
                posts := store.posts.filter
                  (fun q => !(q.id == post_id)) })

/-- CommentUpdateView = CommentMixin + UpdateView (views.py lines 41-56).
dispatch fetches the comment by comment_id alone (404 if absent), then
compares its author with request.user: on mismatch — again including
every anonymous request — it redirects to the detail page of the post_id
taken from the URL, before LoginRequiredMixin can demand a login. -/
def commentEditOp (store : Store) (viewer : Option User)
    (post_id comment_id : Nat) (newText : String) : Response × Store :=
  match store.comments.find? (fun c => c.id == comment_id) with
  | none => (.notFound, store)
  | some c =>
      if viewer != some c.author then
        (.redirectPostDetail post_id, store)
      else
        match viewer with
        | none => (.loginRedirect, store)
        | some _ =>
            (.proceed,
             { store with
                comments := store.comments.map (fun d =>
                  if d.id == comment_id then { d with text := newText }
                  else d) })

/-- CommentDeleteView = CommentMixin + DeleteView: same dispatch order as
commentEditOp; on success the comment row is removed. -/
def commentDeleteOp (store : Store) (viewer : Option User)
    (post_id comment_id : Nat) : Response × Store :=
  match store.comments.find? (fun c => c.id == comment_id) with
  | none => (.notFound, store)
  | some c =>
      if viewer != some c.author then
        (.redirectPostDetail post_id, store)
      else
        match viewer with
        | none => (.loginRedirect, store)
        | some _ =>
            (.proceed,
             { store with
                comments := store.comments.filter
                  (fun d => !(d.id == comment_id)) })

/-- CommentCreateView (views.py lines 205-220): LoginRequiredMixin first,
then form_valid sets the author to the requesting user and the parent to
get_object_or_404(Post, id=post_id) — no visibility condition is applied
to the post.  On success it redirects to the post detail page. -/
def commentCreateOp (store : Store) (viewer : Option User)
    (post_id : Nat) (text : String) (newId : Nat) (at_ : Int) :
    Response × Store :=
  match viewer with
  | none => (.loginRedirect, store)
  | some u =>
      match store.posts.find? (fun p => p.id == post_id) with
      | none => (.notFound, store)
      | some p =>
          (.redirectPostDetail post_id,
           { store with
              comments := store.comments ++
                [{ id := newId, post := p.id, author := u, text := text,
                   created_at := at_ }] })

def demoAlice : User := { id := 1, username := "alice" }

/-- A published, past-dated post with a null category. -/
def nullCatPost : Post :=
  { id := 1, author := demoAlice, category := none, title := "t",
    text := "x", pub_date := 0, is_published := true }

def demoBob : User := { id := 2, username := "bob" }

def pubCat : Category := { id := 1, slug := "general", is_published := true }

def hidCat : Category := { id := 2, slug := "secret", is_published := false }

/-- A publicly visible post authored by bob. -/
def visPost : Post :=
  { id := 2, author := demoBob, category := some pubCat, title := "v",
    text := "", pub_date := 5, is_published := true }

/-- An unpublished post authored by alice. -/
def hiddenPost : Post :=
  { id := 3, author := demoAlice, category := some pubCat, title := "h",
    text := "", pub_date := 0, is_published := false }

/-- A published post sitting in the unpublished category. -/
def hidCatPost : Post :=
  { id := 4, author := demoAlice, category := some hidCat, title := "s",
    text := "", pub_date := 0, is_published := true }

/-- A future-dated post authored by alice. -/
def futurePost : Post :=
  { id := 5, author := demoAlice, category := some pubCat, title := "f",
    text := "", pub_date := 100, is_published := true }

/-- A comment by alice on her post in the unpublished category. -/
def demoComment : Comment :=
  { id := 2, post := 4, author := demoAlice, text := "c2", created_at := 2 }

/-- A small concrete store exercising every visibility situation. -/
def demoStore : Store :=
  { users := [demoAlice, demoBob],
    categories := [pubCat, hidCat],
    posts := [nullCatPost, visPost, hiddenPost, hidCatPost, futurePost],
    comments :=
      [{ id := 1, post := 4, author := demoBob, text := "c1",
         created_at := 1 },
       demoComment,
       { id := 3, post := 2, author := demoBob, text := "c3",
         created_at := 3 }] }

/-- A store holding 25 posts that are all publicly visible at time 24. -/
def store25 : Store :=
  { users := [demoAlice], categories := [pubCat],
    posts := (List.range 25).map (fun i =>
      { id := i, author := demoAlice, category := some pubCat,
        title := "p", text := "", pub_date := (i : Int),
        is_published := true }),
    comments := [] }

/-- C1: counterexample.  For the null-category post above, the spec's
predicate (null category counts as published) is true, yet the filter the
queries evaluate is false: the claim's iff fails at this input. -/
theorem C1_counterexample :
    nullCatPost.category = none ∧ nullCatPost.is_published = true ∧
    nullCatPost.pub_date ≤ (0 : Int) ∧
    isPubliclyVisible_spec 0 nullCatPost = true ∧
    publicFilter 0 nullCatPost = false := by
  decide

/-- find? returns a designated element when it is the unique match. -/
theorem find_of_unique {α : Type} (pred : α → Bool) {l : List α} {a : α}
    (ha : a ∈ l) (hpa : pred a = true)
    (huniq : ∀ x ∈ l, pred x = true → x = a) :
    l.find? pred = some a := by
  induction l with
  | nil => cases ha
  | cons x xs ih =>
      by_cases hx : pred x = true
      · have hxa : x = a := huniq x (List.mem_cons_self x xs) hx
        subst hxa
        exact List.find?_cons_of_pos _ hx
      · have hx' : pred x = false := by
          cases h : pred x
          · rfl
          · exact absurd h hx
        rw [List.find?_cons_of_neg _ (by simp [hx'])]
        rcases List.mem_cons.mp ha with h | h
        · subst h; exact absurd hpa hx
        · exact ih h (fun y hy hp => huniq y (List.mem_cons_of_mem _ hy) hp)

/-- get_object_or_404 on a filtered queryset with pk=id, when post ids
are unique: the designated post is returned iff it passes the filter,
and the result is not-found when it does not. -/
theorem filter_find_id {l : List Post} (cond : Post → Bool) {P : Post}
    (hinj : ∀ p ∈ l, ∀ q ∈ l, p.id = q.id → p = q) (hP : P ∈ l) :
    ((l.filter cond).find? (fun p => p.id == P.id) = some P ↔
      cond P = true) ∧
    (cond P = false →
      (l.filter cond).find? (fun p => p.id == P.id) = none) := by
  constructor
  · constructor
    · intro h
      have hmem := List.mem_of_find?_eq_some h
      exact (List.mem_filter.mp hmem).2
    · intro hc
      apply find_of_unique
      · exact List.mem_filter.mpr ⟨hP, hc⟩
      · simp
      · intro x hx hpx
        have hx' := List.mem_filter.mp hx
        exact hinj x hx'.1 P hP (by simpa using hpx)
  · intro hc
    rw [List.find?_eq_none]
    intro x hx hpx
    have hx' := List.mem_filter.mp hx
    have hxP : x = P := hinj x hx'.1 P hP (by simpa using hpx)
    rw [hxP] at hx'
    simp [hx'.2] at hc

/-- Membership in the common public listing queryset. -/
theorem mem_commonListQueryset {store : Store} {now : Int}
    {a : CountedPost} :
    a ∈ commonListQueryset store now ↔
      ∃ p, p ∈ store.posts ∧ publicFilter now p = true ∧
        a = withCount store.comments p := by
  unfold commonListQueryset
  rw [List.mem_insertionSort]
  constructor
  · intro h
    rcases List.mem_map.mp h with ⟨p, hp, hpa⟩
    exact ⟨p, (List.mem_filter.mp hp).1, (List.mem_filter.mp hp).2,
      hpa.symm⟩
  · rintro ⟨p, hp, hf, rfl⟩
    exact List.mem_map.mpr ⟨p, List.mem_filter.mpr ⟨hp, hf⟩, rfl⟩

/-- C1 (amended): the public-visibility predicate used by the listing and
detail queries holds iff the post is published, its timestamp is at most
now (inclusive), and its category EXISTS and is published; a post with a
null category is never publicly visible. -/
theorem C1_visibility_characterisation (now : Int) (p : Post) :
    publicFilter now p = true ↔
      (p.is_published = true ∧ p.pub_date ≤ now ∧
        ∃ c, p.category = some c ∧ c.is_published = true) := by
  unfold publicFilter categoryPublished
  cases hc : p.category with
  | none =>
      simp [hc]
  | some c =>
      simp [hc, and_assoc]

/-- C3: the post-detail operation returns post P to viewer V iff V is
the author of P or P passes the public-visibility filter; otherwise —
including for every anonymous viewer when P is unpublished — it yields
the not-found result, with no distinction between absent and hidden. -/
theorem C3_detail_access (store : Store) (viewer : Option User)
    (now : Int) (P : Post) (hP : P ∈ store.posts)
    (hinj : ∀ p ∈ store.posts, ∀ q ∈ store.posts, p.id = q.id → p = q) :
    (postDetail store viewer now P.id = some P ↔
      (viewer = some P.author ∨ publicFilter now P = true)) ∧
    (viewer ≠ some P.author → publicFilter now P = false →
      postDetail store viewer now P.id = none) := by
  cases viewer with
  | none =>
      have h := filter_find_id (l := store.posts) (publicFilter now)
        hinj hP
      unfold postDetail
      constructor
      · rw [h.1]
        simp
      · intro _ hc
        exact h.2 hc
  | some u =>
      have h := filter_find_id (l := store.posts)
        (fun p => p.author == u || publicFilter now p) hinj hP
      unfold postDetail
      constructor
      · rw [h.1]
        simp only [Bool.or_eq_true, beq_iff_eq, Option.some.injEq]
        constructor
        · rintro (h1 | h2)
          · exact Or.inl h1.symm
          · exact Or.inr h2
        · rintro (h1 | h2)
          · exact Or.inl h1.symm
          · exact Or.inr h2
      · intro hne hc
        apply h.2
        have hu : ¬(P.author = u) := fun e => hne (by rw [e])
        simp [hc, hu]

/-- C3 witness: at the demo store, an anonymous request for the detail
of the unpublished post is answered not-found. -/
theorem C3_witness :
    postDetail demoStore none 0 hiddenPost.id = none :=
  (C3_detail_access demoStore none 0 hiddenPost (by decide)
    (by decide)).2 (by decide) (by decide)

/-- C2: counterexample on the code as written.  Viewing alice's profile
as bob — a different user — lists the publicly visible posts of EVERY
author: bob's own post appears in alice's profile listing, because the
non-owner branch of ProfileListView.get_queryset returns the common
public queryset without any author filter. -/
theorem C2_profile_lists_other_authors :
    profileQueryset demoStore (some demoBob) demoAlice.username 10 =
      some [withCount demoStore.comments visPost] ∧
    visPost.author = demoBob ∧ demoBob ≠ demoAlice := by
  decide

/-- C4: for an authenticated actor who is not the author, each of the
four mutating operations leaves the store unchanged and redirects to the
detail page of the associated post: the post itself for post edit and
delete, the parent post for comment edit and delete. -/
theorem C4_soft_denial (store : Store) (a : User) (P : Post) (C : Comment)
    (t t' : String)
    (hP : store.posts.find? (fun p => p.id == P.id) = some P)
    (hC : store.comments.find? (fun c => c.id == C.id) = some C)
    (haP : P.author ≠ a) (haC : C.author ≠ a) :
    postEditOp store (some a) P.id t =
      (Response.redirectPostDetail P.id, store) ∧
    postDeleteOp store (some a) P.id =
      (Response.redirectPostDetail P.id, store) ∧
    commentEditOp store (some a) C.post C.id t' =
      (Response.redirectPostDetail C.post, store) ∧
    commentDeleteOp store (some a) C.post C.id =
      (Response.redirectPostDetail C.post, store) := by
  have hba : (some a != some P.author) = true := by
    simp only [bne_iff_ne, ne_eq, Option.some.injEq]
    exact fun e => haP e.symm
  have hbc : (some a != some C.author) = true := by
    simp only [bne_iff_ne, ne_eq, Option.some.injEq]
    exact fun e => haC e.symm
  refine ⟨?_, ?_, ?_, ?_⟩
  · simp [postEditOp, hP, hba]
  · simp [postDeleteOp, hP, hba]
  · simp [commentEditOp, hC, hbc]
  · simp [commentDeleteOp, hC, hbc]

/-- C4 witness: bob attempting to edit alice's post or delete alice's
comment is redirected to the respective post detail page with the store
untouched. -/
theorem C4_witness :
    postEditOp demoStore (some demoBob) hiddenPost.id "zzz" =
      (Response.redirectPostDetail hiddenPost.id, demoStore) ∧
    commentDeleteOp demoStore (some demoBob) demoComment.post
        demoComment.id =
      (Response.redirectPostDetail demoComment.post, demoStore) := by
  have h := C4_soft_denial demoStore demoBob hiddenPost demoComment
    "zzz" "w" (by decide) (by decide) (by decide) (by decide)
  exact ⟨h.1, h.2.2.2⟩

/-- C10: an anonymous request to edit or delete an existing post or
comment is answered with a redirect to the corresponding post detail
page, not with a login redirect: the author comparison in dispatch runs
before the login-required check and an anonymous viewer equals no
author. -/
theorem C10_anonymous_redirect (store : Store) (P : Post) (C : Comment)
    (t t' : String)
    (hP : store.posts.find? (fun p => p.id == P.id) = some P)
    (hC : store.comments.find? (fun c => c.id == C.id) = some C) :
    (postEditOp store none P.id t =
        (Response.redirectPostDetail P.id, store) ∧
      postDeleteOp store none P.id =
        (Response.redirectPostDetail P.id, store) ∧
      commentEditOp store none C.post C.id t' =
        (Response.redirectPostDetail C.post, store) ∧
      commentDeleteOp store none C.post C.id =
        (Response.redirectPostDetail C.post, store)) ∧
    (postEditOp store none P.id t).1 ≠ Response.loginRedirect ∧
    (commentEditOp store none C.post C.id t').1 ≠
      Response.loginRedirect := by
  have h1 : postEditOp store none P.id t =
      (Response.redirectPostDetail P.id, store) := by
    simp [postEditOp, hP]
  have h2 : postDeleteOp store none P.id =
      (Response.redirectPostDetail P.id, store) := by
    simp [postDeleteOp, hP]
  have h3 : commentEditOp store none C.post C.id t' =
      (Response.redirectPostDetail C.post, store) := by
    simp [commentEditOp, hC]
  have h4 : commentDeleteOp store none C.post C.id =
      (Response.redirectPostDetail C.post, store) := by
    simp [commentDeleteOp, hC]
  refine ⟨⟨h1, h2, h3, h4⟩, ?_, ?_⟩
  · rw [h1]; simp
  · rw [h3]; simp

/-- C10 witness: at the demo store, anonymous edit and delete attempts
on an existing post and comment yield detail-page redirects. -/
theorem C10_witness :
    postEditOp demoStore none hiddenPost.id "zzz" =
      (Response.redirectPostDetail hiddenPost.id, demoStore) ∧
    commentEditOp demoStore none demoComment.post demoComment.id "w" =
      (Response.redirectPostDetail demoComment.post, demoStore) := by
  have h := C10_anonymous_redirect demoStore hiddenPost demoComment
    "zzz" "w" (by decide) (by decide)
  exact ⟨h.1.1, h.1.2.2.1⟩

/-- C9: comment creation checks no visibility on the target post: any
authenticated user commenting on any existing post — unpublished,
future-dated or in an unpublished category, and authored by anyone —
gets the comment stored with themselves as author and the post as
parent, followed by a redirect to the post detail page. -/
theorem C9_comment_creation (store : Store) (V : User) (P : Post)
    (t : String) (newId : Nat) (at_ : Int)
    (hP : store.posts.find? (fun p => p.id == P.id) = some P) :
    commentCreateOp store (some V) P.id t newId at_ =
      (Response.redirectPostDetail P.id,
       { store with comments := store.comments ++
          [{ id := newId, post := P.id, author := V, text := t,
             created_at := at_ }] }) := by
  simp [commentCreateOp, hP]

/-- C9 witness: bob comments on alice's unpublished post; the comment is
created with bob as author and that post as parent. -/
theorem C9_witness :
    commentCreateOp demoStore (some demoBob) hiddenPost.id "hi" 99 7 =
      (Response.redirectPostDetail hiddenPost.id,
       { demoStore with comments := demoStore.comments ++
          [{ id := 99, post := hiddenPost.id, author := demoBob,
             text := "hi", created_at := 7 }] }) :=
  C9_comment_creation demoStore demoBob hiddenPost "hi" 99 7 (by decide)

/-- C5: on their own profile page a user sees every post they authored —
unpublished, future-dated or in an unpublished category included — and
each entry carries the total number of comments on that post. -/
theorem C5_own_profile_all_posts (store : Store) (u : User) (now : Int)
    (p : Post)
    (hu : store.users.find? (fun x => x.username == u.username) = some u)
    (hp : p ∈ store.posts) (ha : p.author = u) :
    ∃ l, profileQueryset store (some u) u.username now = some l ∧
      withCount store.comments p ∈ l ∧
      (withCount store.comments p).comment_count =
        (store.comments.filter (fun c => c.post == p.id)).length := by
  have hq : profileQueryset store (some u) u.username now =
      some (List.insertionSort pubDateGE
        ((store.posts.filter
            (fun q => q.author.username == u.username)).map
          (withCount store.comments))) := by
    unfold profileQueryset
    rw [hu]
    simp
  refine ⟨_, hq, ?_, ?_⟩
  · rw [List.mem_insertionSort]
    exact List.mem_map.mpr ⟨p, List.mem_filter.mpr ⟨hp, by simp [ha]⟩,
      rfl⟩
  · simp [withCount, commentTotal, List.countP_eq_length_filter]

/-- C5 witness: alice's own profile contains her published post in the
unpublished category, annotated with its two comments. -/
theorem C5_witness :
    ∃ l,
      profileQueryset demoStore (some demoAlice) demoAlice.username 0 =
        some l ∧
      withCount demoStore.comments hidCatPost ∈ l ∧
      (withCount demoStore.comments hidCatPost).comment_count =
        (demoStore.comments.filter
          (fun c => c.post == hidCatPost.id)).length :=
  C5_own_profile_all_posts demoStore demoAlice 0 hidCatPost (by decide)
    (by decide) (by decide)

/-- Unfolding lemma for paginate on a non-empty list. -/
theorem paginate_ne_nil {α : Type} (n : Nat) (l : List α) (h : l ≠ []) :
    paginate n l =
      l.take (max n 1) :: paginate n (l.drop (max n 1)) := by
  cases l with
  | nil => exact absurd rfl h
  | cons x xs => simp [paginate]

/-- A list of exactly 25 items paginated by tens has pages 10, 10, 5. -/
theorem paginate_25 {α : Type} (l : List α) (h : l.length = 25) :
    (paginate 10 l).map List.length = [10, 10, 5] := by
  have hm : max 10 1 = 10 := rfl
  have h0 : l ≠ [] := by
    intro e; rw [e] at h; simp at h
  have e1 := paginate_ne_nil 10 l h0
  rw [hm] at e1
  have hlen1 : (l.drop 10).length = 15 := by
    rw [List.length_drop, h]
  have h1 : l.drop 10 ≠ [] := by
    intro e; rw [e] at hlen1; simp at hlen1
  have e2 := paginate_ne_nil 10 (l.drop 10) h1
  rw [hm] at e2
  have hlen2 : ((l.drop 10).drop 10).length = 5 := by
    rw [List.length_drop, hlen1]
  have h2 : (l.drop 10).drop 10 ≠ [] := by
    intro e; rw [e] at hlen2; simp at hlen2
  have e3 := paginate_ne_nil 10 ((l.drop 10).drop 10) h2
  rw [hm] at e3
  have hlen3 : (((l.drop 10).drop 10).drop 10).length = 0 := by
    rw [List.length_drop, hlen2]
  have h3 : ((l.drop 10).drop 10).drop 10 = [] :=
    List.eq_nil_of_length_eq_zero hlen3
  rw [e1, e2, e3, h3]
  simp [paginate, List.length_take, h, hlen1, hlen2]

/-- C6: the public listing consists exactly of the posts passing the
public-visibility filter, annotated, in descending publication-
timestamp order, and the index paginates it at the fixed page size 10:
when the listing holds 25 posts it splits into pages of 10, 10, 5. -/
theorem C6_public_listing (store : Store) (now : Int) :
    (∀ a, a ∈ commonListQueryset store now ↔
      ∃ p, p ∈ store.posts ∧ publicFilter now p = true ∧
        a = withCount store.comments p) ∧
    (commonListQueryset store now).Pairwise
      (fun a b => b.post.pub_date ≤ a.post.pub_date) ∧
    MAX_QUANTITY_POST = 10 ∧
    ((commonListQueryset store now).length = 25 →
      (indexPages store now).map List.length = [10, 10, 5]) := by
  refine ⟨fun a => mem_commonListQueryset, ?_, rfl, ?_⟩
  · exact List.sorted_insertionSort pubDateGE _
  · intro h25
    unfold indexPages
    rw [show MAX_QUANTITY_POST = 10 from rfl]
    exact paginate_25 _ h25

/-- C6 witness: the store of 25 posts all visible at time 24 paginates
into pages of sizes 10, 10 and 5. -/
theorem C6_witness :
    (commonListQueryset store25 24).length = 25 ∧
    (indexPages store25 24).map List.length = [10, 10, 5] :=
  ⟨by decide, (C6_public_listing store25 24).2.2.2 (by decide)⟩

/-- C7: a post whose category exists but is unpublished never appears in
the index listing, its category's page is a not-found result (so the
post appears on no category page either), yet its own author can still
reach it through the detail operation. -/
theorem C7_unpublished_category (store : Store) (now : Int) (P : Post)
    (c : Category) (hP : P ∈ store.posts) (hcat : P.category = some c)
    (hcpub : c.is_published = false)
    (hslug : ∀ x ∈ store.categories, x.slug = c.slug → x = c)
    (hinj : ∀ p ∈ store.posts, ∀ q ∈ store.posts, p.id = q.id → p = q) :
    (∀ a ∈ commonListQueryset store now, a.post ≠ P) ∧
    categoryQueryset store now c.slug = none ∧
    postDetail store (some P.author) now P.id = some P := by
  refine ⟨?_, ?_, ?_⟩
  · intro a ha he
    rcases mem_commonListQueryset.mp ha with ⟨p, hp, hf, rfl⟩
    have hpP : p = P := he
    subst hpP
    simp [publicFilter, categoryPublished, hcat, hcpub] at hf
  · unfold categoryQueryset
    have hfind : store.categories.find?
        (fun x => x.slug == c.slug && x.is_published) = none := by
      rw [List.find?_eq_none]
      intro x hx hcontra
      rw [Bool.and_eq_true] at hcontra
      rcases hcontra with ⟨h1, h2⟩
      have hx' : x = c := hslug x hx (by simpa using h1)
      rw [hx'] at h2
      simp [hcpub] at h2
    rw [hfind]
  · have h := filter_find_id (l := store.posts)
      (fun p => p.author == P.author || publicFilter now p) hinj hP
    unfold postDetail
    exact h.1.mpr (by simp)

/-- C7 witness: the published, past-dated post in the unpublished
category is on no index page at time 0, its category page is not found,
and its author alice still gets it from the detail view. -/
theorem C7_witness :
    (∀ a ∈ commonListQueryset demoStore 0, a.post ≠ hidCatPost) ∧
    categoryQueryset demoStore 0 hidCat.slug = none ∧
    postDetail demoStore (some hidCatPost.author) 0 hidCatPost.id =
      some hidCatPost :=
  C7_unpublished_category demoStore 0 hidCatPost hidCat (by decide)
    (by decide) (by decide) (by decide) (by decide)

/-- Each annotated entry carries the full comment count of its post. -/
theorem withCount_counts (comments : List Comment) (p : Post) :
    (withCount comments p).comment_count =
      (comments.filter
        (fun c => c.post == (withCount comments p).post.id)).length := by
  simp [withCount, commentTotal, List.countP_eq_length_filter]

/-- C8: in every listing — index, category page, or either branch of the
profile page — each entry's annotated comment count equals the number
of stored comments whose parent is that post, with no further filter. -/
theorem C8_comment_counts (store : Store) (now : Int)
    (viewer : Option User) (uname slug : String) :
    (∀ a ∈ commonListQueryset store now,
      a.comment_count =
        (store.comments.filter (fun c => c.post == a.post.id)).length) ∧
    (∀ l, categoryQueryset store now slug = some l → ∀ a ∈ l,
      a.comment_count =
        (store.comments.filter (fun c => c.post == a.post.id)).length) ∧
    (∀ l, profileQueryset store viewer uname now = some l → ∀ a ∈ l,
      a.comment_count =
        (store.comments.filter (fun c => c.post == a.post.id)).length)
    := by
  have hcommon : ∀ a ∈ commonListQueryset store now,
      a.comment_count =
        (store.comments.filter (fun c => c.post == a.post.id)).length
      := by
    intro a ha
    rcases mem_commonListQueryset.mp ha with ⟨p, _, _, rfl⟩
    exact withCount_counts store.comments p
  refine ⟨hcommon, ?_, ?_⟩
  · intro l hl a ha
    unfold categoryQueryset at hl
    split at hl
    · cases hl
    · injection hl with h
      subst h
      exact hcommon a (List.mem_filter.mp ha).1
  · intro l hl a ha
    unfold profileQueryset at hl
    split at hl
    · cases hl
    · split at hl
      · injection hl with h
        subst h
        rw [List.mem_insertionSort] at ha
        rcases List.mem_map.mp ha with ⟨p, _, rfl⟩
        exact withCount_counts store.comments p
      · injection hl with h
        subst h
        exact hcommon a ha

/-- C8 witness: in the index listing at time 10, the entry for bob's
visible post carries comment count 1, the number of its stored
comments. -/
theorem C8_witness :
    (withCount demoStore.comments visPost).comment_count =
      (demoStore.comments.filter
        (fun c => c.post ==
          (withCount demoStore.comments visPost).post.id)).length :=
  (C8_comment_counts demoStore 10 none "x" "y").1
    (withCount demoStore.comments visPost) (by decide)
